import Mathlib

/-!
Shallow embedding of the breathwork session engine of this repository
(`src/utils/breathworkEngine.ts`, data model in `src/utils/breathworkPatterns.ts`),
together with proofs about its state machine: phase sequencing, round and session
completion, pause/resume/stop/reset control calls, per-second counting, timer
liveness and the event feed.

Modelling conventions:
- JavaScript numbers holding whole seconds are `Int` where the code can drive
  them below zero (`timeRemaining` is decremented before the `<= 0` check) and
  `Nat` where they only count up (`duration`, `breaths`, `currentRound`,
  `elapsedTime`, indices).
- The mutable class instance becomes a state record `BreathworkEngine`; each
  method becomes a function from the record (plus a clock reading `now` where
  the method calls `performance.now()`) to the record, paired with the list of
  events the method emits via `emitEvent` (delivered to all listeners in order,
  so the list is the whole observable emission).
- `setInterval` / `clearInterval` are modelled by an id generator
  (`nextTimerId`), the set of currently scheduled interval ids
  (`liveTimerIds`), and the handle the class stores in its `timer` field.
  `setInterval` schedules a fresh id and stores it in the handle;
  `clearInterval(this.timer)` unschedules exactly the id the handle holds.
- The sound callback is modelled by whether one is installed
  (`soundCallback : Bool`); invoking it has no effect on engine state, so the
  conditional invocation inside `updateCountingState` needs no state change.
-/

inductive PhaseType where
  | inhale
  | hold
  | exhale
  | pause
deriving Repr, DecidableEq

structure BreathPhase where
  type : PhaseType
  duration : Nat
  label : Option String := none
deriving Repr, DecidableEq

inductive PatternCategory where
  | relaxation
  | energizing
  | meditative
  | custom
deriving Repr, DecidableEq

structure BreathPattern where
  id : String
  name : String
  description : String
  category : PatternCategory
  phases : List BreathPhase
  isCyclical : Bool
  defaultBreaths : Option Nat := none
  instructions : Option String := none
deriving Repr, DecidableEq

structure BreathSession where
  pattern : BreathPattern
  breaths : Nat
  currentRound : Nat
  currentPhaseIndex : Nat
  timeRemaining : Int
  isActive : Bool
  isPaused : Bool
  totalTime : Nat
  elapsedTime : Nat
deriving Repr, DecidableEq

inductive CountDirection where
  | up
  | down
  | hold
deriving Repr, DecidableEq

/-- Events emitted through `emitEvent`; the payload fields mirror the `data`
object the source attaches to each event type. -/
inductive EngineEvent where
  | phaseChange (phase : BreathPhase) (phaseIndex : Nat) (round : Nat)
  | roundComplete (completedRound : Nat) (totalRounds : Nat)
  | sessionComplete
  | pauseEvent
  | resumeEvent
  | stopEvent
deriving Repr, DecidableEq

structure BreathworkEngine where
  session : Option BreathSession
  timer : Option Nat
  liveTimerIds : List Nat
  nextTimerId : Nat
  phaseStartTime : Int
  currentCount : Int
  countingDirection : CountDirection
  soundCallback : Bool
  lastUpdateTime : Int
  expectedNextUpdate : Int
  expectedTime : Int
deriving Repr, DecidableEq

namespace BreathworkEngine

/-- Field initializers of the class: fresh engine with no session, no timer,
count 1 counting up, no sound callback. -/
def initEngine : BreathworkEngine :=
  { session := none
    timer := none
    liveTimerIds := []
    nextTimerId := 0
    phaseStartTime := 0
    currentCount := 1
    countingDirection := .up
    soundCallback := false
    lastUpdateTime := 0
    expectedNextUpdate := 0
    expectedTime := 0 }

/-- Models `setInterval(...)`: schedules a fresh interval id and stores it in the
`timer` handle. -/
def setIntervalTimer (e : BreathworkEngine) : BreathworkEngine :=
  { e with
    liveTimerIds := e.nextTimerId :: e.liveTimerIds
    timer := some e.nextTimerId
    nextTimerId := e.nextTimerId + 1 }

/-- Models the source idiom of clearing the interval handle:
unschedules the interval the handle holds, if any. -/
def clearTimer (e : BreathworkEngine) : BreathworkEngine :=
  match e.timer with
  | none => e
  | some id => { e with liveTimerIds := e.liveTimerIds.erase id, timer := none }

/-- Method `getCurrentPhase()`. -/
def getCurrentPhase (e : BreathworkEngine) : Option BreathPhase :=
  match e.session with
  | none => none
  | some s => s.pattern.phases[s.currentPhaseIndex]?

/-- Method `calculateTotalTime(pattern, breaths)`: pattern duration times rounds. -/
def calculateTotalTime (pattern : BreathPattern) (breaths : Nat) : Nat :=
  (pattern.phases.foldl (fun total phase => total + phase.duration) 0) * breaths

/-- Method `updateCountingState()`: recomputes `currentCount` / `countingDirection`
from the current phase. The source also conditionally invokes the sound
callback here; that call does not change engine state. -/
def updateCountingState (e : BreathworkEngine) : BreathworkEngine :=
  match e.session with
  | none => e
  | some s =>
    if !s.isActive then e
    else
      match s.pattern.phases[s.currentPhaseIndex]? with
      | none => e
      | some currentPhase =>
        let phaseDuration : Int := currentPhase.duration
        let timeElapsed : Int := phaseDuration - s.timeRemaining
        match currentPhase.type with
        | .inhale =>
          { e with currentCount := min (timeElapsed + 1) phaseDuration
                   countingDirection := .up }
        | .hold =>
          { e with currentCount := min (timeElapsed + 1) phaseDuration
                   countingDirection := .up }
        | .exhale =>
          { e with currentCount := min (timeElapsed + 1) phaseDuration
                   countingDirection := .up }
        | .pause =>
          { e with currentCount := max s.timeRemaining 1
                   countingDirection := .down }

/-- Method `createSession(pattern, breaths)`; its `pattern.phases[0]?.duration || 0`
becomes an `Option.getD 0` lookup. -/
def createSession (e : BreathworkEngine) (pattern : BreathPattern)
    (breaths : Nat) : BreathworkEngine :=
  let totalTime := calculateTotalTime pattern breaths
  let e1 : BreathworkEngine :=
    { e with
      session := some
        { pattern := pattern,
          breaths := breaths,
          currentRound := 1,
          currentPhaseIndex := 0,
          timeRemaining := ((pattern.phases[0]?).map (fun p => (p.duration : Int))).getD 0,
          isActive := false,
          isPaused := false,
          totalTime := totalTime,
          elapsedTime := 0 },
      currentCount := 1,
      countingDirection := .up }
  updateCountingState e1

/-- Method `setSoundCallback(callback)`: installs or clears the single-slot callback. -/
def setSoundCallback (e : BreathworkEngine) (callback : Bool) : BreathworkEngine :=
  { e with soundCallback := callback }

/-- Method `startPreciseTimer()`: records the clock reading in `expectedTime` and
schedules the interval. -/
def startPreciseTimer (e : BreathworkEngine) (now : Int) : BreathworkEngine :=
  match e.session with
  | none => e
  | some _ => setIntervalTimer { e with expectedTime := now }

/-- Method `start()`. -/
def start (e : BreathworkEngine) (now : Int) : BreathworkEngine × List EngineEvent :=
  match e.session with
  | none => (e, [])
  | some s =>
    let e1 : BreathworkEngine :=
      { e with
        session := some { s with isActive := true, isPaused := false },
        phaseStartTime := now,
        lastUpdateTime := now,
        expectedNextUpdate := now + 1000 }
    let e2 := updateCountingState e1
    let e3 := startPreciseTimer e2 now
    (e3, [.resumeEvent])

/-- Method `pause()`. -/
def pause (e : BreathworkEngine) : BreathworkEngine × List EngineEvent :=
  match e.session with
  | none => (e, [])
  | some s =>
    if !s.isActive then (e, [])
    else
      let e1 : BreathworkEngine := { e with session := some { s with isPaused := true } }
      (clearTimer e1, [.pauseEvent])

/-- Method `resume()`. -/
def resume (e : BreathworkEngine) (now : Int) : BreathworkEngine × List EngineEvent :=
  match e.session with
  | none => (e, [])
  | some s =>
    if !s.isPaused then (e, [])
    else
      let s1 := { s with isPaused := false }
      let phaseDuration : Int :=
        ((s1.pattern.phases[s1.currentPhaseIndex]?).map (fun p => (p.duration : Int))).getD 0
      let timeElapsedInPhase := phaseDuration - s1.timeRemaining
      let e1 : BreathworkEngine :=
        { e with
          session := some s1,
          phaseStartTime := now - timeElapsedInPhase * 1000,
          lastUpdateTime := now,
          expectedTime := now,
          expectedNextUpdate := now + 1000 }
      let e2 := startPreciseTimer e1 now
      (e2, [.resumeEvent])

/-- Method `stop()`: clears the timer, deactivates the session if present, clears the
sound callback, and always emits a stop event. -/
def stop (e : BreathworkEngine) : BreathworkEngine × List EngineEvent :=
  let e1 := clearTimer e
  let e2 : BreathworkEngine :=
    match e1.session with
    | none => e1
    | some s => { e1 with session := some { s with isActive := false, isPaused := false } }
  ({ e2 with soundCallback := false }, [.stopEvent])

/-- Method `reset()`: a `stop()` then rewind the session counters and the counting
state; the sound callback is cleared again. -/
def reset (e : BreathworkEngine) : BreathworkEngine × List EngineEvent :=
  let e1 := (stop e).1
  let evs := (stop e).2
  let e2 : BreathworkEngine :=
    match e1.session with
    | none => e1
    | some s =>
      { e1 with
        session := some
          { s with
            currentRound := 1,
            currentPhaseIndex := 0,
            timeRemaining := ((s.pattern.phases[0]?).map (fun p => (p.duration : Int))).getD 0,
            elapsedTime := 0 },
        currentCount := 1,
        countingDirection := .up }
  ({ e2 with soundCallback := false }, evs)

/-- Method `completeSession()`: stop, clear callback, reset the count, then emit
`sessionComplete` (after the stop event that `stop()` emits). -/
def completeSession (e : BreathworkEngine) : BreathworkEngine × List EngineEvent :=
  let e1 := (stop e).1
  let e2 : BreathworkEngine :=
    { e1 with soundCallback := false, currentCount := 1, countingDirection := .up }
  (e2, (stop e).2 ++ [.sessionComplete])

/-- Method `completeRound()`. On an empty phase list the source would fault reading
`phases[0].duration`; that branch returns with only the round event (it is
unreachable from the states the theorems below consider). -/
def completeRound (e : BreathworkEngine) : BreathworkEngine × List EngineEvent :=
  match e.session with
  | none => (e, [])
  | some s =>
    let s1 := { s with currentRound := s.currentRound + 1, currentPhaseIndex := 0 }
    let e1 : BreathworkEngine := { e with session := some s1 }
    let roundEvent := EngineEvent.roundComplete (s1.currentRound - 1) s1.breaths
    if s1.breaths < s1.currentRound then
      ((completeSession e1).1, roundEvent :: (completeSession e1).2)
    else
      match s1.pattern.phases[0]? with
      | none => (e1, [roundEvent])
      | some firstPhase =>
        let s2 := { s1 with timeRemaining := (firstPhase.duration : Int) }
        let e2 := updateCountingState { e1 with session := some s2 }
        (e2, [roundEvent, .phaseChange firstPhase 0 s2.currentRound])

/-- Method `advancePhase()`. -/
def advancePhase (e : BreathworkEngine) : BreathworkEngine × List EngineEvent :=
  match e.session with
  | none => (e, [])
  | some s =>
    let s1 := { s with currentPhaseIndex := s.currentPhaseIndex + 1 }
    let e1 : BreathworkEngine := { e with session := some s1 }
    if s1.pattern.phases.length ≤ s1.currentPhaseIndex then
      completeRound e1
    else
      match s1.pattern.phases[s1.currentPhaseIndex]? with
      | none => (e1, [])
      | some nextPhase =>
        let s2 := { s1 with timeRemaining := (nextPhase.duration : Int) }
        let e2 := updateCountingState { e1 with session := some s2 }
        (e2, [.phaseChange nextPhase s2.currentPhaseIndex s2.currentRound])

/-- Body of the `setInterval` callback installed by `startPreciseTimer`: one
firing of the one-second tick. The drift computation reads the clock but does
not affect the state transition. `updateCountingState` leaves the session
untouched, so the `timeRemaining <= 0` check reads the decremented value. -/
def timerTick (e : BreathworkEngine) (now : Int) : BreathworkEngine × List EngineEvent :=
  match e.session with
  | none => (clearTimer e, [])
  | some s =>
    if s.isPaused || !s.isActive then (clearTimer e, [])
    else
      let _drift := now - e.expectedTime
      let s1 := { s with timeRemaining := s.timeRemaining - 1
                         elapsedTime := s.elapsedTime + 1 }
      let e1 := updateCountingState { e with session := some s1 }
      let res := if s1.timeRemaining ≤ 0 then advancePhase e1 else (e1, [])
      ({ res.1 with
         expectedTime := res.1.expectedTime + 1000,
         lastUpdateTime := now,
         expectedNextUpdate := res.1.expectedTime + 1000 }, res.2)

/-- Runs `n` consecutive tick firings, the clock advancing one second per
firing, collecting all emitted events in order. -/
def runTicks (e : BreathworkEngine) (now : Int) (n : Nat) : BreathworkEngine × List EngineEvent :=
  match n with
  | 0 => (e, [])
  | n + 1 =>
    let step := timerTick e now
    let rest := runTicks step.1 (now + 1000) n
    (rest.1, step.2 ++ rest.2)

end BreathworkEngine

/-- Sum of the phase durations of a phase list (the per-round tick count). -/
def phasesTotal (phases : List BreathPhase) : Nat :=
  phases.foldl (fun total phase => total + phase.duration) 0

def isRoundCompleteEvent : EngineEvent → Bool
  | .roundComplete _ _ => true
  | _ => false

def isSessionCompleteEvent : EngineEvent → Bool
  | .sessionComplete => true
  | _ => false

/-- Box Breathing, the first entry of the `BREATH_PATTERNS` catalog. -/
def boxBreathing : BreathPattern :=
  { id := "box-breathing"
    name := "Box Breathing"
    description := "Equal duration for all phases - promotes calm and focus"
    category := .relaxation
    phases :=
      [ { type := .inhale, duration := 4, label := some "Inhale" }
      , { type := .hold, duration := 4, label := some "Hold" }
      , { type := .exhale, duration := 4, label := some "Exhale" }
      , { type := .hold, duration := 4, label := some "Hold" } ]
    isCyclical := true
    defaultBreaths := some 10
    instructions := some "Breathe in for 4 counts, hold for 4, exhale for 4, hold for 4. Repeat." }

namespace BreathworkEngine

/-- The engine holds an active, unpaused session over phase list `L` with
target round count `N`, currently at round `r`, phase index `i`, with `t`
seconds left in the current phase. -/
def RunningWith (e : BreathworkEngine) (L : List BreathPhase) (N r i : Nat) (t : Int) : Prop :=
  ∃ s, e.session = some s ∧ s.pattern.phases = L ∧ s.breaths = N ∧
    s.currentRound = r ∧ s.currentPhaseIndex = i ∧ s.timeRemaining = t ∧
    s.isActive = true ∧ s.isPaused = false

/-- The engine holds a naturally completed session: inert, with `currentRound`
one past the target round count. -/
def CompletedWith (e : BreathworkEngine) (N : Nat) : Prop :=
  ∃ s, e.session = some s ∧ s.breaths = N ∧ s.currentRound = N + 1 ∧
    s.isActive = false ∧ s.isPaused = false

lemma updateCountingState_spec (e : BreathworkEngine) :
    ∃ c d, updateCountingState e =
      { e with currentCount := c, countingDirection := d } := by
  refine ⟨(updateCountingState e).currentCount, (updateCountingState e).countingDirection, ?_⟩
  unfold updateCountingState
  split
  · rfl
  · split
    · rfl
    · split
      · rfl
      · split <;> rfl

lemma updateCountingState_session (e : BreathworkEngine) :
    (updateCountingState e).session = e.session := by
  obtain ⟨c, d, h⟩ := updateCountingState_spec e
  rw [h]

lemma clearTimer_session (e : BreathworkEngine) :
    (clearTimer e).session = e.session := by
  unfold clearTimer
  split <;> rfl

lemma stop_events (e : BreathworkEngine) : (stop e).2 = [.stopEvent] := rfl

lemma stop_session (e : BreathworkEngine) (s : BreathSession) (hs : e.session = some s) :
    (stop e).1.session = some { s with isActive := false, isPaused := false } := by
  simp [stop, clearTimer_session, hs]

lemma completeSession_events (e : BreathworkEngine) :
    (completeSession e).2 = [.stopEvent, .sessionComplete] := by
  simp [completeSession, stop_events]

lemma completeSession_session (e : BreathworkEngine) (s : BreathSession)
    (hs : e.session = some s) :
    (completeSession e).1.session = some { s with isActive := false, isPaused := false } := by
  simp only [completeSession]
  exact stop_session e s hs

end BreathworkEngine
namespace BreathworkEngine

lemma timerTick_mid (e : BreathworkEngine) (now : Int) {L : List BreathPhase} {N r i : Nat}
    {t : Int} (hR : RunningWith e L N r i t) (ht : 2 ≤ t) :
    (timerTick e now).2 = [] ∧ RunningWith (timerTick e now).1 L N r i (t - 1) := by
  obtain ⟨s, hs, hL, hN, hr, hi, htr, hA, hP⟩ := hR
  have hcond : ¬ (s.timeRemaining - 1 ≤ 0) := by omega
  have h2 : (timerTick e now).2 = [] := by
    simp [timerTick, hs, hA, hP, hcond]
  have h1 : (timerTick e now).1.session =
      some { s with timeRemaining := s.timeRemaining - 1, elapsedTime := s.elapsedTime + 1 } := by
    simp [timerTick, hs, hA, hP, hcond, updateCountingState_session]
  exact ⟨h2, { s with timeRemaining := s.timeRemaining - 1, elapsedTime := s.elapsedTime + 1 },
    h1, hL, hN, hr, hi, show s.timeRemaining - 1 = t - 1 by omega, hA, hP⟩

end BreathworkEngine
namespace BreathworkEngine

lemma advancePhase_next (e : BreathworkEngine) {s : BreathSession} {q : BreathPhase}
    {rest : List BreathPhase} (hs : e.session = some s)
    (hdrop : s.pattern.phases.drop (s.currentPhaseIndex + 1) = q :: rest) :
    (advancePhase e).2 = [.phaseChange q (s.currentPhaseIndex + 1) s.currentRound] ∧
    (advancePhase e).1.session = some
      { s with currentPhaseIndex := s.currentPhaseIndex + 1,
               timeRemaining := (q.duration : Int) } := by
  have hlen : ¬ (s.pattern.phases.length ≤ s.currentPhaseIndex + 1) := by
    have := congrArg List.length hdrop
    simp [List.length_drop] at this
    omega
  have hget : s.pattern.phases[s.currentPhaseIndex + 1]? = some q := by
    rw [← List.head?_drop, hdrop]
    rfl
  constructor <;> simp [advancePhase, hs, hlen, hget, updateCountingState_session]

lemma advancePhase_roundEnd (e : BreathworkEngine) {s : BreathSession}
    (hs : e.session = some s)
    (hlen : s.pattern.phases.length ≤ s.currentPhaseIndex + 1) :
    advancePhase e = completeRound
      { e with session := some { s with currentPhaseIndex := s.currentPhaseIndex + 1 } } := by
  simp [advancePhase, hs, hlen]

lemma completeRound_continue (e : BreathworkEngine) {s : BreathSession} {p0 : BreathPhase}
    (hs : e.session = some s) (hr : s.currentRound + 1 ≤ s.breaths)
    (h0 : s.pattern.phases[0]? = some p0) :
    (completeRound e).2 = [.roundComplete s.currentRound s.breaths,
                          .phaseChange p0 0 (s.currentRound + 1)] ∧
    (completeRound e).1.session = some
      { s with currentRound := s.currentRound + 1, currentPhaseIndex := 0,
               timeRemaining := (p0.duration : Int) } := by
  have hguard : ¬ (s.breaths < s.currentRound + 1) := by omega
  constructor <;> simp [completeRound, hs, hguard, h0, updateCountingState_session]

lemma completeRound_finish (e : BreathworkEngine) {s : BreathSession}
    (hs : e.session = some s) (hr : s.breaths < s.currentRound + 1) :
    (completeRound e).2 = [.roundComplete s.currentRound s.breaths, .stopEvent,
                          .sessionComplete] ∧
    (completeRound e).1.session = some
      { s with currentRound := s.currentRound + 1, currentPhaseIndex := 0,
               isActive := false, isPaused := false } := by
  have hses := completeSession_session
    { e with session := some { s with currentRound := s.currentRound + 1, currentPhaseIndex := 0 } }
    { s with currentRound := s.currentRound + 1, currentPhaseIndex := 0 } rfl
  have hevs := completeSession_events
    { e with session := some { s with currentRound := s.currentRound + 1, currentPhaseIndex := 0 } }
  constructor <;> simp [completeRound, hs, hr, hevs, hses]

lemma timerTick_eq_advance (e : BreathworkEngine) (now : Int) {s : BreathSession}
    (hs : e.session = some s) (hA : s.isActive = true) (hP : s.isPaused = false)
    (hcond : s.timeRemaining - 1 ≤ 0) :
    (timerTick e now).2 = (advancePhase (updateCountingState
      { e with session := some { s with timeRemaining := s.timeRemaining - 1,
                                        elapsedTime := s.elapsedTime + 1 } })).2 ∧
    (timerTick e now).1.session = (advancePhase (updateCountingState
      { e with session := some { s with timeRemaining := s.timeRemaining - 1,
                                        elapsedTime := s.elapsedTime + 1 } })).1.session := by
  constructor <;> simp [timerTick, hs, hA, hP, hcond]

end BreathworkEngine
namespace BreathworkEngine

/-- Session after the tick's decrement/increment, before any phase advance. -/
def tickedSession (s : BreathSession) : BreathSession :=
  { s with timeRemaining := s.timeRemaining - 1, elapsedTime := s.elapsedTime + 1 }

lemma timerTick_eq_advance' (e : BreathworkEngine) (now : Int) {s : BreathSession}
    (hs : e.session = some s) (hA : s.isActive = true) (hP : s.isPaused = false)
    (hcond : s.timeRemaining - 1 ≤ 0) :
    (timerTick e now).2 =
      (advancePhase (updateCountingState { e with session := some (tickedSession s) })).2 ∧
    (timerTick e now).1.session =
      (advancePhase (updateCountingState { e with session := some (tickedSession s) })).1.session := by
  constructor <;> simp [timerTick, tickedSession, hs, hA, hP, hcond]

lemma timerTick_advance (e : BreathworkEngine) (now : Int) {L : List BreathPhase}
    {N r i : Nat} {q : BreathPhase} {rest : List BreathPhase}
    (hR : RunningWith e L N r i 1) (hdrop : L.drop (i + 1) = q :: rest) :
    (timerTick e now).2 = [.phaseChange q (i + 1) r] ∧
    RunningWith (timerTick e now).1 L N r (i + 1) (q.duration : Int) := by
  obtain ⟨s, hs, hL, hN, hr, hi, htr, hA, hP⟩ := hR
  have hcond : s.timeRemaining - 1 ≤ 0 := by omega
  obtain ⟨hev0, hses0⟩ := timerTick_eq_advance' e now hs hA hP hcond
  generalize hX : updateCountingState { e with session := some (tickedSession s) } = X
    at hev0 hses0
  have hXs : X.session = some (tickedSession s) := by
    rw [← hX, updateCountingState_session]
  have hdrop1 : (tickedSession s).pattern.phases.drop
      ((tickedSession s).currentPhaseIndex + 1) = q :: rest := by
    show s.pattern.phases.drop (s.currentPhaseIndex + 1) = q :: rest
    rw [hL, hi]
    exact hdrop
  obtain ⟨hev1, hses1⟩ := advancePhase_next X hXs hdrop1
  constructor
  · rw [hev0, hev1]
    simp [tickedSession, hi, hr]
  · refine ⟨_, hses0.trans hses1, hL, hN, hr, ?_, rfl, hA, hP⟩
    show s.currentPhaseIndex + 1 = i + 1
    omega

lemma timerTick_round (e : BreathworkEngine) (now : Int) {L : List BreathPhase}
    {N r i : Nat} {p p0 : BreathPhase}
    (hR : RunningWith e L N r i 1) (hdrop : L.drop i = [p]) (h0 : L[0]? = some p0)
    (hrN : r + 1 ≤ N) :
    (timerTick e now).2 = [.roundComplete r N, .phaseChange p0 0 (r + 1)] ∧
    RunningWith (timerTick e now).1 L N (r + 1) 0 (p0.duration : Int) := by
  obtain ⟨s, hs, hL, hN, hr, hi, htr, hA, hP⟩ := hR
  have hcond : s.timeRemaining - 1 ≤ 0 := by omega
  obtain ⟨hev0, hses0⟩ := timerTick_eq_advance' e now hs hA hP hcond
  generalize hX : updateCountingState { e with session := some (tickedSession s) } = X
    at hev0 hses0
  have hXs : X.session = some (tickedSession s) := by
    rw [← hX, updateCountingState_session]
  have hlen1 : (tickedSession s).pattern.phases.length ≤
      (tickedSession s).currentPhaseIndex + 1 := by
    show s.pattern.phases.length ≤ s.currentPhaseIndex + 1
    have := congrArg List.length hdrop
    simp [List.length_drop] at this
    rw [hL, hi]
    omega
  have hadv := advancePhase_roundEnd X hXs hlen1
  have hr2 : ({ tickedSession s with currentPhaseIndex :=
      (tickedSession s).currentPhaseIndex + 1 } : BreathSession).currentRound + 1 ≤
      ({ tickedSession s with currentPhaseIndex :=
        (tickedSession s).currentPhaseIndex + 1 } : BreathSession).breaths := by
    show s.currentRound + 1 ≤ s.breaths
    omega
  have h02 : ({ tickedSession s with currentPhaseIndex :=
      (tickedSession s).currentPhaseIndex + 1 } : BreathSession).pattern.phases[0]? = some p0 := by
    show s.pattern.phases[0]? = some p0
    rw [hL]
    exact h0
  have hcc := completeRound_continue
    { X with session := some { tickedSession s with currentPhaseIndex :=
        (tickedSession s).currentPhaseIndex + 1 } } rfl hr2 h02
  have hsession := hcc.2
  rw [← hadv, ← hses0] at hsession
  have hround : s.currentRound + 1 = r + 1 := by omega
  constructor
  · rw [hev0, hadv, hcc.1]
    simp [tickedSession, hr, hN]
  · exact ⟨_, hsession, hL, hN, hround, rfl, rfl, hA, hP⟩

lemma timerTick_complete (e : BreathworkEngine) (now : Int) {L : List BreathPhase}
    {N r i : Nat} {p : BreathPhase}
    (hR : RunningWith e L N r i 1) (hdrop : L.drop i = [p]) (hrN : N ≤ r) :
    (timerTick e now).2 = [.roundComplete r N, .stopEvent, .sessionComplete] ∧
    ∃ s', (timerTick e now).1.session = some s' ∧ s'.pattern.phases = L ∧
      s'.breaths = N ∧ s'.currentRound = r + 1 ∧ s'.isActive = false ∧ s'.isPaused = false := by
  obtain ⟨s, hs, hL, hN, hr, hi, htr, hA, hP⟩ := hR
  have hcond : s.timeRemaining - 1 ≤ 0 := by omega
  obtain ⟨hev0, hses0⟩ := timerTick_eq_advance' e now hs hA hP hcond
  generalize hX : updateCountingState { e with session := some (tickedSession s) } = X
    at hev0 hses0
  have hXs : X.session = some (tickedSession s) := by
    rw [← hX, updateCountingState_session]
  have hlen1 : (tickedSession s).pattern.phases.length ≤
      (tickedSession s).currentPhaseIndex + 1 := by
    show s.pattern.phases.length ≤ s.currentPhaseIndex + 1
    have := congrArg List.length hdrop
    simp [List.length_drop] at this
    rw [hL, hi]
    omega
  have hadv := advancePhase_roundEnd X hXs hlen1
  have hr2 : ({ tickedSession s with currentPhaseIndex :=
      (tickedSession s).currentPhaseIndex + 1 } : BreathSession).breaths <
      ({ tickedSession s with currentPhaseIndex :=
        (tickedSession s).currentPhaseIndex + 1 } : BreathSession).currentRound + 1 := by
    show s.breaths < s.currentRound + 1
    omega
  have hcf := completeRound_finish
    { X with session := some { tickedSession s with currentPhaseIndex :=
        (tickedSession s).currentPhaseIndex + 1 } } rfl hr2
  have hsession := hcf.2
  rw [← hadv, ← hses0] at hsession
  have hround : s.currentRound + 1 = r + 1 := by omega
  constructor
  · rw [hev0, hadv, hcf.1]
    simp [tickedSession, hr, hN]
  · exact ⟨_, hsession, hL, hN, hround, rfl, rfl⟩

end BreathworkEngine
namespace BreathworkEngine

lemma phasesTotal_go (l : List BreathPhase) :
    ∀ a : Nat, l.foldl (fun total phase => total + phase.duration) a = a + phasesTotal l := by
  induction l with
  | nil => intro a; simp [phasesTotal]
  | cons p l ih =>
    intro a
    simp only [List.foldl_cons]
    rw [ih]
    have h2 : phasesTotal (p :: l) = 0 + p.duration + phasesTotal l := by
      show (p :: l).foldl (fun total phase => total + phase.duration) 0 = _
      simp only [List.foldl_cons]
      exact ih (0 + p.duration)
    rw [h2]
    omega

lemma phasesTotal_nil : phasesTotal [] = 0 := rfl

lemma phasesTotal_cons (p : BreathPhase) (l : List BreathPhase) :
    phasesTotal (p :: l) = p.duration + phasesTotal l := by
  show (p :: l).foldl (fun total phase => total + phase.duration) 0 = _
  simp only [List.foldl_cons]
  rw [phasesTotal_go]
  omega

lemma runTicks_zero (e : BreathworkEngine) (now : Int) : runTicks e now 0 = (e, []) := rfl

lemma runTicks_succ (e : BreathworkEngine) (now : Int) (n : Nat) :
    runTicks e now (n + 1) =
      ((runTicks (timerTick e now).1 (now + 1000) n).1,
        (timerTick e now).2 ++ (runTicks (timerTick e now).1 (now + 1000) n).2) := rfl

lemma runTicks_one (e : BreathworkEngine) (now : Int) :
    runTicks e now 1 = ((timerTick e now).1, (timerTick e now).2) := by
  simp [runTicks]

lemma runTicks_add (a : Nat) :
    ∀ (b : Nat) (e : BreathworkEngine) (now : Int),
      runTicks e now (a + b) =
        ((runTicks (runTicks e now a).1 (now + 1000 * (a : Int)) b).1,
          (runTicks e now a).2 ++ (runTicks (runTicks e now a).1 (now + 1000 * (a : Int)) b).2) := by
  induction a with
  | zero =>
    intro b e now
    simp [runTicks_zero]
  | succ a ih =>
    intro b e now
    have hidx : a + 1 + b = (a + b) + 1 := by omega
    rw [hidx, runTicks_succ, runTicks_succ, ih]
    have harith : now + 1000 + 1000 * (a : Int) = now + 1000 * ((a : Int) + 1) := by ring
    push_cast
    rw [harith, List.append_assoc]

end BreathworkEngine
namespace BreathworkEngine

/-- Running the remainder of the current round: from phase `i` (a suffix
`p :: rest` of the phase list) with `t` seconds left in phase `i`, ticking
`t + phasesTotal rest` times finishes exactly this round: one `roundComplete`
is emitted, and the engine either completes the session (when this was round
`N`) or runs at round `r + 1`, phase 0. -/
lemma run_phases (L : List BreathPhase) (N : Nat) (p0 : BreathPhase) (L0 : List BreathPhase)
    (hL : L = p0 :: L0) (hdur : ∀ q ∈ L, 1 ≤ q.duration) (r : Nat) (hrN : r ≤ N) :
    ∀ (rest : List BreathPhase) (p : BreathPhase) (t : Nat) (i : Nat)
      (e : BreathworkEngine) (now : Int),
      L.drop i = p :: rest → 1 ≤ t → t ≤ p.duration →
      RunningWith e L N r i (t : Int) →
      ((runTicks e now (t + phasesTotal rest)).2.filter isRoundCompleteEvent).length = 1 ∧
      ((runTicks e now (t + phasesTotal rest)).2.filter isSessionCompleteEvent).length =
        (if r = N then 1 else 0) ∧
      (r = N → CompletedWith (runTicks e now (t + phasesTotal rest)).1 N) ∧
      (r < N → RunningWith (runTicks e now (t + phasesTotal rest)).1 L N (r + 1) 0
        (p0.duration : Int)) := by
  intro rest
  induction rest with
  | nil =>
    intro p t
    induction t with
    | zero =>
      intro i e now hdrop h1 h2 hR
      omega
    | succ t iht =>
      intro i e now hdrop h1 h2 hR
      by_cases hT : t = 0
      · subst hT
        have hR1 : RunningWith e L N r i 1 := by simpa using hR
        have h0 : L[0]? = some p0 := by rw [hL]; simp
        simp only [Nat.zero_add, phasesTotal_nil, Nat.add_zero, runTicks_one]
        rcases Nat.lt_or_ge r N with hLt | hGe
        · obtain ⟨hev, hRun⟩ := timerTick_round e now hR1 hdrop h0 hLt
          refine ⟨?_, ?_, ?_, ?_⟩
          · simp [hev, isRoundCompleteEvent]
          · simp [hev, isSessionCompleteEvent, Nat.ne_of_lt hLt]
          · intro hEq; omega
          · intro _; exact hRun
        · have hEq : r = N := by omega
          obtain ⟨hev, s', hs', hLp, hNp, hrp, hAp, hPp⟩ :=
            timerTick_complete e now hR1 hdrop hGe
          refine ⟨?_, ?_, ?_, ?_⟩
          · simp [hev, isRoundCompleteEvent]
          · simp [hev, isSessionCompleteEvent, hEq]
          · intro _; exact ⟨s', hs', hNp, by omega, hAp, hPp⟩
          · intro hLt; omega
      · have ht2 : (2 : Int) ≤ ((t + 1 : Nat) : Int) := by omega
        obtain ⟨hev1, hR1⟩ := timerTick_mid e now hR ht2
        have hcast : ((t + 1 : Nat) : Int) - 1 = (t : Int) := by push_cast; ring
        rw [hcast] at hR1
        have hidx : t + 1 + phasesTotal [] = (t + phasesTotal []) + 1 := by omega
        rw [hidx, runTicks_succ]
        have := iht i (timerTick e now).1 (now + 1000) hdrop (by omega) (by omega) hR1
        refine ⟨?_, ?_, this.2.2.1, this.2.2.2⟩
        · rw [hev1]
          simpa using this.1
        · rw [hev1]
          simpa using this.2.1
  | cons q rest' ihrest =>
    intro p t
    induction t with
    | zero =>
      intro i e now hdrop h1 h2 hR
      omega
    | succ t iht =>
      intro i e now hdrop h1 h2 hR
      by_cases hT : t = 0
      · subst hT
        have hR1 : RunningWith e L N r i 1 := by simpa using hR
        have hdropq : L.drop (i + 1) = q :: rest' := by
          rw [← List.tail_drop, hdrop]
          rfl
        obtain ⟨hev1, hR2⟩ := timerTick_advance e now hR1 hdropq
        have hqmem : q ∈ L := by
          have : q ∈ L.drop (i + 1) := by rw [hdropq]; exact List.mem_cons_self q rest'
          exact List.mem_of_mem_drop this
        have hidx : 0 + 1 + phasesTotal (q :: rest') =
            (q.duration + phasesTotal rest') + 1 := by
          rw [phasesTotal_cons]; omega
        rw [hidx, runTicks_succ]
        have := ihrest q q.duration (i + 1) (timerTick e now).1 (now + 1000) hdropq
          (hdur q hqmem) (le_refl _) hR2
        refine ⟨?_, ?_, this.2.2.1, this.2.2.2⟩
        · rw [hev1]
          simpa [isRoundCompleteEvent] using this.1
        · rw [hev1]
          simpa [isSessionCompleteEvent] using this.2.1
      · have ht2 : (2 : Int) ≤ ((t + 1 : Nat) : Int) := by omega
        obtain ⟨hev1, hR1⟩ := timerTick_mid e now hR ht2
        have hcast : ((t + 1 : Nat) : Int) - 1 = (t : Int) := by push_cast; ring
        rw [hcast] at hR1
        have hidx : t + 1 + phasesTotal (q :: rest') =
            (t + phasesTotal (q :: rest')) + 1 := by omega
        rw [hidx, runTicks_succ]
        have := iht i (timerTick e now).1 (now + 1000) hdrop (by omega) (by omega) hR1
        refine ⟨?_, ?_, this.2.2.1, this.2.2.2⟩
        · rw [hev1]
          simpa using this.1
        · rw [hev1]
          simpa using this.2.1

end BreathworkEngine
namespace BreathworkEngine

/-- Running `m + 1` whole rounds from the start of round `r` (where
`r + m = N`) completes the session, emitting `m + 1` round events and one
session-complete event. -/
lemma run_rounds (L : List BreathPhase) (N : Nat) (p0 : BreathPhase) (L0 : List BreathPhase)
    (hL : L = p0 :: L0) (hdur : ∀ q ∈ L, 1 ≤ q.duration) :
    ∀ (m r : Nat) (e : BreathworkEngine) (now : Int), r + m = N →
      RunningWith e L N r 0 (p0.duration : Int) →
      ((runTicks e now (phasesTotal L * (m + 1))).2.filter isRoundCompleteEvent).length
        = m + 1 ∧
      ((runTicks e now (phasesTotal L * (m + 1))).2.filter isSessionCompleteEvent).length
        = 1 ∧
      CompletedWith (runTicks e now (phasesTotal L * (m + 1))).1 N := by
  intro m
  induction m with
  | zero =>
    intro r e now hm hR
    have hEq : r = N := by omega
    have hd0 : L.drop 0 = p0 :: L0 := by rw [List.drop_zero, hL]
    have hp0 : 1 ≤ p0.duration := hdur p0 (by rw [hL]; exact List.mem_cons_self _ _)
    have hrun := run_phases L N p0 L0 hL hdur r (le_of_eq hEq) L0 p0 p0.duration 0 e now
      hd0 hp0 (le_refl _) hR
    have hidx : p0.duration + phasesTotal L0 = phasesTotal L * (0 + 1) := by
      rw [hL, phasesTotal_cons]
      omega
    rw [hidx] at hrun
    exact ⟨hrun.1, by simpa [hEq] using hrun.2.1, hrun.2.2.1 hEq⟩
  | succ m ih =>
    intro r e now hm hR
    have hLt : r < N := by omega
    have hd0 : L.drop 0 = p0 :: L0 := by rw [List.drop_zero, hL]
    have hp0 : 1 ≤ p0.duration := hdur p0 (by rw [hL]; exact List.mem_cons_self _ _)
    have h1 := run_phases L N p0 L0 hL hdur r (by omega) L0 p0 p0.duration 0 e now
      hd0 hp0 (le_refl _) hR
    have hidx1 : p0.duration + phasesTotal L0 = phasesTotal L := by
      rw [hL, phasesTotal_cons]
    rw [hidx1] at h1
    have hR2 := h1.2.2.2 hLt
    have h2 := ih (r + 1) (runTicks e now (phasesTotal L)).1
      (now + 1000 * (phasesTotal L : Int)) (by omega) hR2
    have hsplit := runTicks_add (phasesTotal L) (phasesTotal L * (m + 1)) e now
    have hidx2 : phasesTotal L + phasesTotal L * (m + 1) = phasesTotal L * (m + 1 + 1) := by
      ring
    rw [hidx2] at hsplit
    rw [hsplit]
    refine ⟨?_, ?_, ?_⟩
    · simp only [List.filter_append, List.length_append]
      rw [h1.1, h2.1]
      omega
    · simp only [List.filter_append, List.length_append]
      rw [h1.2.1, h2.2.1]
      simp [Nat.ne_of_lt hLt]
    · exact h2.2.2

lemma createSession_session (e : BreathworkEngine) (P : BreathPattern) (N : Nat)
    {p0 : BreathPhase} {L0 : List BreathPhase} (hP : P.phases = p0 :: L0) :
    (createSession e P N).session = some
      { pattern := P, breaths := N, currentRound := 1, currentPhaseIndex := 0,
        timeRemaining := (p0.duration : Int), isActive := false, isPaused := false,
        totalTime := calculateTotalTime P N, elapsedTime := 0 } := by
  simp [createSession, updateCountingState_session, hP]

lemma start_session (e : BreathworkEngine) {s : BreathSession} (hs : e.session = some s)
    (now : Int) :
    (start e now).1.session = some { s with isActive := true, isPaused := false } := by
  simp [start, hs, startPreciseTimer, setIntervalTimer, updateCountingState_session]

/-- After `createSession` and `start`, the engine runs at round 1, phase 0,
with the first phase's full duration remaining. -/
lemma started_running (e₀ : BreathworkEngine) (P : BreathPattern) (N : Nat)
    {p0 : BreathPhase} {L0 : List BreathPhase} (hP : P.phases = p0 :: L0) (now : Int) :
    RunningWith (start (createSession e₀ P N) now).1 P.phases N 1 0 (p0.duration : Int) := by
  have hcs := createSession_session e₀ P N hP
  have hss := start_session _ hcs now
  exact ⟨_, hss, rfl, rfl, rfl, rfl, rfl, rfl, rfl⟩

end BreathworkEngine
namespace BreathworkEngine

/-- Single-phase test pattern `[inhale 3]` (the concrete scenario of the
specification's testable properties). -/
def singleInhale : BreathPattern :=
  { id := "single-inhale"
    name := "Single Inhale"
    description := "One inhale phase"
    category := .custom
    phases := [ { type := .inhale, duration := 3 } ]
    isCyclical := true }

/-- C1: for every breath pattern with a non-empty phase list of positive
durations and every round count N ≥ 1, after `createSession`, `start`, and
exactly `sum(durations) * N` ticks the session is Completed (inactive with
`currentRound = N + 1`), exactly N `roundComplete` events and exactly one
`sessionComplete` event having been emitted. -/
theorem c1_completion (e₀ : BreathworkEngine) (P : BreathPattern) (N : Nat)
    (p0 : BreathPhase) (L0 : List BreathPhase) (hP : P.phases = p0 :: L0)
    (hdur : ∀ q ∈ P.phases, 1 ≤ q.duration) (hN : 1 ≤ N) (now now' : Int) :
    CompletedWith (runTicks (start (createSession e₀ P N) now).1 now'
      (phasesTotal P.phases * N)).1 N ∧
    ((runTicks (start (createSession e₀ P N) now).1 now'
      (phasesTotal P.phases * N)).2.filter isRoundCompleteEvent).length = N ∧
    ((runTicks (start (createSession e₀ P N) now).1 now'
      (phasesTotal P.phases * N)).2.filter isSessionCompleteEvent).length = 1 := by
  have hR := started_running e₀ P N hP now
  have hmain := run_rounds P.phases N p0 L0 hP hdur (N - 1) 1
    (start (createSession e₀ P N) now).1 now' (by omega) hR
  have hidx : phasesTotal P.phases * (N - 1 + 1) = phasesTotal P.phases * N := by
    congr 1
    omega
  rw [hidx] at hmain
  have hcnt : N - 1 + 1 = N := by omega
  rw [hcnt] at hmain
  exact ⟨hmain.2.2, hmain.1, hmain.2.1⟩

/-- Closed instance of the C1 theorem: Box Breathing with 2 rounds completes
after 32 ticks with 2 round events and 1 session-complete event. -/
theorem c1_completion_witness :
    CompletedWith (runTicks (start (createSession initEngine boxBreathing 2) 0).1 0
      (phasesTotal boxBreathing.phases * 2)).1 2 ∧
    ((runTicks (start (createSession initEngine boxBreathing 2) 0).1 0
      (phasesTotal boxBreathing.phases * 2)).2.filter isRoundCompleteEvent).length = 2 ∧
    ((runTicks (start (createSession initEngine boxBreathing 2) 0).1 0
      (phasesTotal boxBreathing.phases * 2)).2.filter isSessionCompleteEvent).length = 1 :=
  c1_completion initEngine boxBreathing 2 _ _ rfl (by decide) (by decide) 0 0

end BreathworkEngine
namespace BreathworkEngine

/-- C4: `pause()` with no session or an inactive session, and `resume()` with
a session that is not paused, return without touching any state and without
emitting any event. In the embedding every control method is a total
function, mirroring that no control method throws. -/
theorem c4_invalid_controls_noop (e : BreathworkEngine) (now : Int) :
    ((∀ s, e.session = some s → s.isActive = false) → pause e = (e, [])) ∧
    ((∀ s, e.session = some s → s.isPaused = false) → resume e now = (e, [])) := by
  constructor
  · intro h
    cases hs : e.session with
    | none => simp [pause, hs]
    | some s => simp [pause, hs, h s hs]
  · intro h
    cases hs : e.session with
    | none => simp [resume, hs]
    | some s => simp [resume, hs, h s hs]

/-- Closed instance of the C4 theorem at the fresh engine (no session). -/
theorem c4_invalid_controls_noop_witness :
    pause initEngine = (initEngine, []) ∧ resume initEngine 0 = (initEngine, []) :=
  ⟨(c4_invalid_controls_noop initEngine 0).1 (fun s h => by simp [initEngine] at h),
   (c4_invalid_controls_noop initEngine 0).2 (fun s h => by simp [initEngine] at h)⟩

/-- C6: on a running session, `pause()` immediately followed by `resume()`
restores the session record exactly — `timeRemaining`, `currentRound`,
`currentPhaseIndex` and `elapsedTime` (indeed every session field) are
unchanged, for any clock reading passed to `resume`. -/
theorem c6_pause_resume_preserves (e : BreathworkEngine) (s : BreathSession) (now : Int)
    (hs : e.session = some s) (hA : s.isActive = true) (hP : s.isPaused = false) :
    (resume (pause e).1 now).1.session = some s := by
  obtain ⟨pat, br, cr, cpi, tr, ia, ip, tt, et⟩ := s
  simp only at hA hP
  subst hA
  subst hP
  have hpse : (pause e).1.session =
      some { pattern := pat, breaths := br, currentRound := cr, currentPhaseIndex := cpi,
             timeRemaining := tr, isActive := true, isPaused := true, totalTime := tt,
             elapsedTime := et } := by
    simp [pause, hs, clearTimer_session]
  simp [resume, hpse, startPreciseTimer, setIntervalTimer, updateCountingState_session]

/-- C7: `reset()` rewinds the session to round 1, phase 0, with the first
phase's duration remaining and zero elapsed time, resets the count to 1
counting up, and keeps the pattern and the round target. -/
theorem c7_reset_restores (e : BreathworkEngine) (s : BreathSession) (p0 : BreathPhase)
    (hs : e.session = some s) (h0 : s.pattern.phases[0]? = some p0) :
    ∃ s', (reset e).1.session = some s' ∧
      s'.currentRound = 1 ∧ s'.currentPhaseIndex = 0 ∧
      s'.timeRemaining = (p0.duration : Int) ∧ s'.elapsedTime = 0 ∧
      s'.pattern = s.pattern ∧ s'.breaths = s.breaths ∧
      (reset e).1.currentCount = 1 ∧ (reset e).1.countingDirection = .up := by
  have hstop := stop_session e s hs
  have hses : (reset e).1.session = some
      { s with currentRound := 1, currentPhaseIndex := 0,
               timeRemaining := (p0.duration : Int), elapsedTime := 0,
               isActive := false, isPaused := false } := by
    simp [reset, hstop, h0]
  have hcnt : (reset e).1.currentCount = 1 := by
    simp [reset, hstop]
  have hdir : (reset e).1.countingDirection = .up := by
    simp [reset, hstop]
  exact ⟨_, hses, rfl, rfl, rfl, rfl, rfl, rfl, hcnt, hdir⟩

/-- Closed instance of the C7 theorem after one tick of a started session. -/
theorem c7_reset_restores_witness :
    ∃ s', (reset (timerTick (start (createSession initEngine singleInhale 1) 0).1 0).1).1.session
        = some s' ∧
      s'.currentRound = 1 ∧ s'.currentPhaseIndex = 0 ∧
      s'.timeRemaining = ((3 : Nat) : Int) ∧ s'.elapsedTime = 0 ∧
      s'.pattern = singleInhale ∧ s'.breaths = 1 ∧
      (reset (timerTick (start (createSession initEngine singleInhale 1) 0).1 0).1).1.currentCount
        = 1 ∧
      (reset (timerTick (start (createSession initEngine singleInhale 1) 0).1 0).1).1.countingDirection
        = .up :=
  c7_reset_restores (timerTick (start (createSession initEngine singleInhale 1) 0).1 0).1
    { pattern := singleInhale, breaths := 1, currentRound := 1, currentPhaseIndex := 0,
      timeRemaining := 2, isActive := true, isPaused := false, totalTime := 3,
      elapsedTime := 1 }
    { type := .inhale, duration := 3 } (by decide) (by decide)

/-- C9: `stop()` is never silent: for every engine state, with or without a
session, it emits exactly one stop event and clears the sound callback. -/
theorem c9_stop_always_emits (e : BreathworkEngine) :
    (stop e).2 = [EngineEvent.stopEvent] ∧ (stop e).1.soundCallback = false :=
  ⟨rfl, rfl⟩

/-- C10: the engine has no distinct start event — the `EngineEvent` type,
mirroring the source's event union, has no start variant, and `start()` with
an existing session emits an event of type `resume`; and natural completion
emits the stop event immediately before `sessionComplete`. -/
theorem c10_no_start_event_stop_before_complete (e : BreathworkEngine) (now : Int) :
    (e.session.isSome → (start e now).2 = [EngineEvent.resumeEvent]) ∧
    (completeSession e).2 = [EngineEvent.stopEvent, EngineEvent.sessionComplete] := by
  constructor
  · intro h
    cases hs : e.session with
    | none => rw [hs] at h; simp at h
    | some s => simp [start, hs]
  · exact completeSession_events e

/-- Closed instance of the C10 theorem on a freshly created session. -/
theorem c10_no_start_event_stop_before_complete_witness :
    (start (createSession initEngine singleInhale 1) 0).2 = [EngineEvent.resumeEvent] ∧
    (completeSession (createSession initEngine singleInhale 1)).2 =
      [EngineEvent.stopEvent, EngineEvent.sessionComplete] :=
  ⟨(c10_no_start_event_stop_before_complete (createSession initEngine singleInhale 1) 0).1
      (by decide),
   (c10_no_start_event_stop_before_complete (createSession initEngine singleInhale 1) 0).2⟩

/-- C3 (code evidence): `start()` does not cancel a previously live interval —
after `createSession`, `start()`, `start()` two intervals are scheduled at
once, and the session they both drive is active and unpaused, so neither
clears itself: the state the specification rules out is reachable. -/
theorem c3_double_start_two_live_timers :
    ((start (start (createSession initEngine boxBreathing 1) 0).1 0).1).liveTimerIds.length
      = 2 ∧
    ((start (start (createSession initEngine boxBreathing 1) 0).1 0).1).session.map
      (fun s => s.isActive && !s.isPaused) = some true := by
  constructor <;> rfl

end BreathworkEngine
namespace BreathworkEngine

/-- Closed instance of the C6 theorem on a freshly started session. -/
theorem c6_pause_resume_preserves_witness :
    (resume (pause (start (createSession initEngine singleInhale 1) 0).1).1 500).1.session =
      some { pattern := singleInhale, breaths := 1, currentRound := 1, currentPhaseIndex := 0,
             timeRemaining := 3, isActive := true, isPaused := false, totalTime := 3,
             elapsedTime := 0 } :=
  c6_pause_resume_preserves (start (createSession initEngine singleInhale 1) 0).1
    { pattern := singleInhale, breaths := 1, currentRound := 1, currentPhaseIndex := 0,
      timeRemaining := 3, isActive := true, isPaused := false, totalTime := 3,
      elapsedTime := 0 } 500 (by decide) (by decide) (by decide)

/-- Engine holding an active, already paused session (created, started, then
paused once). -/
def pausedEngine : BreathworkEngine :=
  (pause (start (createSession initEngine singleInhale 1) 0).1).1

/-- C5 counterexample: on an active, already-paused session a second `pause()`
does emit a (second) pause event, so it is not a no-op at the event level. -/
theorem c5_second_pause_not_silent :
    pausedEngine.session.map BreathSession.isActive = some true ∧
    pausedEngine.session.map BreathSession.isPaused = some true ∧
    (pause pausedEngine).2 = [EngineEvent.pauseEvent] ∧
    ¬ (pause pausedEngine).2 = [] := by
  refine ⟨rfl, rfl, rfl, ?_⟩
  decide

/-- C5 amended: `resume()` while running is a complete no-op; `pause()` while
already paused (with the interval handle already cleared, as a first `pause`
leaves it) changes no state but re-emits a `pause` event. -/
theorem c5_idempotence_amended (e : BreathworkEngine) (s : BreathSession) (now : Int)
    (hs : e.session = some s) (hA : s.isActive = true) :
    (s.isPaused = true → e.timer = none → pause e = (e, [EngineEvent.pauseEvent])) ∧
    (s.isPaused = false → resume e now = (e, [])) := by
  constructor
  · intro hp hT
    obtain ⟨ses, tim, live, nid, pst, cc, cd, sc, lut, enu, ext⟩ := e
    simp only at hs hT
    subst hs
    subst hT
    obtain ⟨pat, br, cr, cpi, tr, ia, ip, tt, et⟩ := s
    simp only at hA hp
    subst hA
    subst hp
    simp [pause, clearTimer]
  · intro hp
    simp [resume, hs, hp]

/-- Closed instance of the C5 amended theorem: the repeated `pause` and the
redundant `resume`. -/
theorem c5_idempotence_amended_witness :
    pause pausedEngine = (pausedEngine, [EngineEvent.pauseEvent]) ∧
    resume (start (createSession initEngine singleInhale 1) 0).1 0 =
      ((start (createSession initEngine singleInhale 1) 0).1, []) :=
  ⟨(c5_idempotence_amended pausedEngine
      { pattern := singleInhale, breaths := 1, currentRound := 1, currentPhaseIndex := 0,
        timeRemaining := 3, isActive := true, isPaused := true, totalTime := 3,
        elapsedTime := 0 } 0 (by decide) (by decide)).1 (by decide) (by decide),
   (c5_idempotence_amended (start (createSession initEngine singleInhale 1) 0).1
      { pattern := singleInhale, breaths := 1, currentRound := 1, currentPhaseIndex := 0,
        timeRemaining := 3, isActive := true, isPaused := false, totalTime := 3,
        elapsedTime := 0 } 0 (by decide) (by decide)).2 (by decide)⟩

end BreathworkEngine
namespace BreathworkEngine

lemma updateCountingState_up (e : BreathworkEngine) {s : BreathSession} {p : BreathPhase}
    (hs : e.session = some s) (hA : s.isActive = true)
    (hp : s.pattern.phases[s.currentPhaseIndex]? = some p)
    (hty : ¬ p.type = PhaseType.pause) :
    (updateCountingState e).currentCount =
      min ((p.duration : Int) - s.timeRemaining + 1) (p.duration : Int) ∧
    (updateCountingState e).countingDirection = .up := by
  cases hT : p.type with
  | pause => exact absurd hT hty
  | inhale => constructor <;> simp [updateCountingState, hs, hA, hp, hT]
  | hold => constructor <;> simp [updateCountingState, hs, hA, hp, hT]
  | exhale => constructor <;> simp [updateCountingState, hs, hA, hp, hT]

lemma updateCountingState_pauseType (e : BreathworkEngine) {s : BreathSession}
    {p : BreathPhase} (hs : e.session = some s) (hA : s.isActive = true)
    (hp : s.pattern.phases[s.currentPhaseIndex]? = some p)
    (hty : p.type = PhaseType.pause) :
    (updateCountingState e).currentCount = max s.timeRemaining 1 ∧
    (updateCountingState e).countingDirection = .down := by
  constructor <;> simp [updateCountingState, hs, hA, hp, hty]

lemma timerTick_noadvance (e : BreathworkEngine) (now : Int) {s : BreathSession}
    (hs : e.session = some s) (hA : s.isActive = true) (hP : s.isPaused = false)
    (hcond : ¬ (s.timeRemaining - 1 ≤ 0)) :
    (timerTick e now).1.session = some (tickedSession s) ∧
    (timerTick e now).1.currentCount =
      (updateCountingState { e with session := some (tickedSession s) }).currentCount ∧
    (timerTick e now).1.countingDirection =
      (updateCountingState { e with session := some (tickedSession s) }).countingDirection := by
  refine ⟨?_, ?_, ?_⟩ <;>
    simp [timerTick, tickedSession, hs, hA, hP, hcond, updateCountingState_session]

end BreathworkEngine
namespace BreathworkEngine

/-- C2: per-second counting. From the entry of the current phase (full
duration remaining, count freshly computed), for every `k < duration`, after
`k` ticks the engine still sits in that phase with `duration - k` seconds
left, and displays count `k + 1` counting up for `inhale`/`hold`/`exhale`
phases (the code's `min(elapsed_in_phase + 1, duration)` with
`elapsed_in_phase = k`), and count `duration - k` counting down for `pause`
phases — so the ticks of the phase display `1, 2, ..., D` in order for the
up-counting types and `D, D-1, ..., 1` for `pause`. -/
theorem c2_per_second_counting (e : BreathworkEngine) (s : BreathSession) (p : BreathPhase)
    (hs : e.session = some s) (hA : s.isActive = true) (hP : s.isPaused = false)
    (hp : s.pattern.phases[s.currentPhaseIndex]? = some p)
    (hentry : s.timeRemaining = (p.duration : Int))
    (hcount : e.currentCount =
      if p.type = PhaseType.pause then (p.duration : Int) else 1)
    (hdir : e.countingDirection =
      if p.type = PhaseType.pause then CountDirection.down else CountDirection.up)
    (now : Int) (k : Nat) (hk : k < p.duration) :
    ((runTicks e now k).1.currentCount =
      if p.type = PhaseType.pause then (p.duration : Int) - k else (k : Int) + 1) ∧
    ((runTicks e now k).1.countingDirection =
      if p.type = PhaseType.pause then CountDirection.down else CountDirection.up) ∧
    ∃ s', (runTicks e now k).1.session = some s' ∧
      s'.pattern = s.pattern ∧ s'.currentPhaseIndex = s.currentPhaseIndex ∧
      s'.timeRemaining = (p.duration : Int) - k ∧
      s'.isActive = true ∧ s'.isPaused = false := by
  induction k with
  | zero =>
    simp only [runTicks_zero]
    refine ⟨?_, ?_, s, hs, rfl, rfl, ?_, hA, hP⟩
    · rw [hcount]
      simp
    · rw [hdir]
    · rw [hentry]
      simp
  | succ k ih =>
    have hk' : k < p.duration := by omega
    obtain ⟨ihc, ihd, s', hses', hpat, hidx, htr, hAct, hPau⟩ := ih hk'
    have hE1 : (runTicks e now (k + 1)).1 =
        (timerTick (runTicks e now k).1 (now + 1000 * (k : Int))).1 := by
      rw [runTicks_add k 1 e now, runTicks_one]
    have hE2 : (runTicks e now (k + 1)).1.session =
        (timerTick (runTicks e now k).1 (now + 1000 * (k : Int))).1.session := by
      rw [hE1]
    have hcond : ¬ (s'.timeRemaining - 1 ≤ 0) := by
      rw [htr]
      omega
    obtain ⟨hses2, hcnt2, hdir2⟩ :=
      timerTick_noadvance (runTicks e now k).1 (now + 1000 * (k : Int)) hses' hAct hPau hcond
    have hp' : (tickedSession s').pattern.phases[(tickedSession s').currentPhaseIndex]? =
        some p := by
      show s'.pattern.phases[s'.currentPhaseIndex]? = some p
      rw [hpat, hidx]
      exact hp
    have hAct' : (tickedSession s').isActive = true := hAct
    have htr' : (tickedSession s').timeRemaining = (p.duration : Int) - k - 1 := by
      show s'.timeRemaining - 1 = _
      rw [htr]
    have htr'' : (tickedSession s').timeRemaining = (p.duration : Int) - ((k : Nat) + 1 : Nat) := by
      rw [htr']
      push_cast
      ring
    by_cases hT : p.type = PhaseType.pause
    · obtain ⟨hc, hd⟩ := updateCountingState_pauseType
        { (runTicks e now k).1 with session := some (tickedSession s') } rfl hAct' hp' hT
      rw [htr'] at hc
      refine ⟨?_, ?_, tickedSession s', hE2.trans hses2, hpat, hidx, htr'', hAct, hPau⟩
      · rw [hE1, hcnt2, hc, max_eq_left (by omega), if_pos hT]
        push_cast
        ring
      · rw [hE1, hdir2, hd, if_pos hT]
    · obtain ⟨hc, hd⟩ := updateCountingState_up
        { (runTicks e now k).1 with session := some (tickedSession s') } rfl hAct' hp' hT
      rw [htr'] at hc
      refine ⟨?_, ?_, tickedSession s', hE2.trans hses2, hpat, hidx, htr'', hAct, hPau⟩
      · rw [hE1, hcnt2, hc, min_eq_left (by omega), if_neg hT]
        push_cast
        ring
      · rw [hE1, hdir2, hd, if_neg hT]

end BreathworkEngine
namespace BreathworkEngine

/-- Single-phase test pattern `[pause 4]` for the down-counting branch. -/
def singlePause : BreathPattern :=
  { id := "single-pause"
    name := "Single Pause"
    description := "One pause phase"
    category := .custom
    phases := [ { type := .pause, duration := 4 } ]
    isCyclical := true }

/-- Closed instance of the C2 theorem: after 2 ticks an inhale phase of
duration 3 displays 3 counting up, a pause phase of duration 4 displays 2
counting down. -/
theorem c2_per_second_counting_witness :
    ((runTicks (start (createSession initEngine singleInhale 1) 0).1 0 2).1.currentCount = 3 ∧
     (runTicks (start (createSession initEngine singleInhale 1) 0).1 0 2).1.countingDirection =
       CountDirection.up) ∧
    ((runTicks (start (createSession initEngine singlePause 2) 0).1 0 2).1.currentCount = 2 ∧
     (runTicks (start (createSession initEngine singlePause 2) 0).1 0 2).1.countingDirection =
       CountDirection.down) := by
  have h1 := c2_per_second_counting (start (createSession initEngine singleInhale 1) 0).1
    { pattern := singleInhale, breaths := 1, currentRound := 1, currentPhaseIndex := 0,
      timeRemaining := 3, isActive := true, isPaused := false, totalTime := 3,
      elapsedTime := 0 }
    { type := .inhale, duration := 3 }
    (by decide) (by decide) (by decide) (by decide) (by decide) (by decide) (by decide)
    0 2 (by decide)
  have h2 := c2_per_second_counting (start (createSession initEngine singlePause 2) 0).1
    { pattern := singlePause, breaths := 2, currentRound := 1, currentPhaseIndex := 0,
      timeRemaining := 4, isActive := true, isPaused := false, totalTime := 8,
      elapsedTime := 0 }
    { type := .pause, duration := 4 }
    (by decide) (by decide) (by decide) (by decide) (by decide) (by decide) (by decide)
    0 2 (by decide)
  exact ⟨⟨by simpa using h1.1, by simpa using h1.2.1⟩,
         ⟨by simpa using h2.1, by simpa using h2.2.1⟩⟩

end BreathworkEngine
namespace BreathworkEngine

lemma start_noSession (e : BreathworkEngine) (now : Int) (hs : e.session = none) :
    start e now = (e, []) := by
  simp [start, hs]

lemma pause_noSession (e : BreathworkEngine) (hs : e.session = none) :
    pause e = (e, []) := by
  simp [pause, hs]

lemma pause_inactive (e : BreathworkEngine) {s : BreathSession} (hs : e.session = some s)
    (hA : s.isActive = false) : pause e = (e, []) := by
  simp [pause, hs, hA]

lemma pause_session_active (e : BreathworkEngine) {s : BreathSession}
    (hs : e.session = some s) (hA : s.isActive = true) :
    (pause e).1.session = some { s with isPaused := true } := by
  simp [pause, hs, hA, clearTimer_session]

lemma resume_noSession (e : BreathworkEngine) (now : Int) (hs : e.session = none) :
    resume e now = (e, []) := by
  simp [resume, hs]

lemma resume_notPaused (e : BreathworkEngine) (now : Int) {s : BreathSession}
    (hs : e.session = some s) (hp : s.isPaused = false) : resume e now = (e, []) := by
  simp [resume, hs, hp]

lemma resume_session_paused (e : BreathworkEngine) (now : Int) {s : BreathSession}
    (hs : e.session = some s) (hp : s.isPaused = true) :
    (resume e now).1.session = some { s with isPaused := false } := by
  simp [resume, hs, hp, startPreciseTimer, setIntervalTimer]

lemma stop_session_none (e : BreathworkEngine) (hs : e.session = none) :
    (stop e).1.session = none := by
  simp [stop, clearTimer_session, hs]

lemma reset_session_none (e : BreathworkEngine) (hs : e.session = none) :
    (reset e).1.session = none := by
  have h := stop_session_none e hs
  simp [reset, h]

lemma reset_session (e : BreathworkEngine) {s : BreathSession} (hs : e.session = some s) :
    (reset e).1.session =
      some { s with
             currentRound := 1, currentPhaseIndex := 0,
             timeRemaining := ((s.pattern.phases[0]?).map (fun p => (p.duration : Int))).getD 0,
             elapsedTime := 0, isActive := false, isPaused := false } := by
  have h := stop_session e s hs
  simp [reset, h]

lemma timerTick_noSession (e : BreathworkEngine) (now : Int) (hs : e.session = none) :
    (timerTick e now).1 = clearTimer e := by
  simp [timerTick, hs]

lemma timerTick_guard (e : BreathworkEngine) (now : Int) {s : BreathSession}
    (hs : e.session = some s) (hG : (s.isPaused || !s.isActive) = true) :
    (timerTick e now).1 = clearTimer e := by
  simp [timerTick, hs, hG]

end BreathworkEngine
namespace BreathworkEngine

lemma completeRound_noPhase (e : BreathworkEngine) {s : BreathSession}
    (hs : e.session = some s) (hguard : ¬ (s.breaths < s.currentRound + 1))
    (h0 : s.pattern.phases[0]? = none) :
    (completeRound e).1.session =
      some { s with currentRound := s.currentRound + 1, currentPhaseIndex := 0 } := by
  simp [completeRound, hs, hguard, h0]

/-- One firing of the tick on an active, unpaused session either keeps the
round (mid-phase or plain phase advance) or completes the round, in which
case the session either finishes (round was the last) or continues active at
the incremented round. -/
lemma timerTick_session_cases (e : BreathworkEngine) (now : Int) {s : BreathSession}
    (hs : e.session = some s) (hA : s.isActive = true) (hP : s.isPaused = false) :
    (∃ s', (timerTick e now).1.session = some s' ∧ s'.breaths = s.breaths ∧
      s'.currentRound = s.currentRound ∧ s'.isActive = true ∧ s'.isPaused = false) ∨
    (∃ s', (timerTick e now).1.session = some s' ∧ s'.breaths = s.breaths ∧
      s'.currentRound = s.currentRound + 1 ∧
      ((s.breaths < s.currentRound + 1 ∧ s'.isActive = false ∧ s'.isPaused = false) ∨
       (s.currentRound + 1 ≤ s.breaths ∧ s'.isActive = true ∧ s'.isPaused = false))) := by
  by_cases hcond : s.timeRemaining - 1 ≤ 0
  case neg =>
    obtain ⟨hses, -, -⟩ := timerTick_noadvance e now hs hA hP hcond
    exact Or.inl ⟨tickedSession s, hses, rfl, rfl, hA, hP⟩
  case pos =>
    obtain ⟨-, hses0⟩ := timerTick_eq_advance' e now hs hA hP hcond
    generalize hX : updateCountingState { e with session := some (tickedSession s) } = X
      at hses0
    have hXs : X.session = some (tickedSession s) := by
      rw [← hX, updateCountingState_session]
    by_cases hlen : (tickedSession s).pattern.phases.length ≤
        (tickedSession s).currentPhaseIndex + 1
    case neg =>
      have hlt : (tickedSession s).currentPhaseIndex + 1 <
          (tickedSession s).pattern.phases.length := by omega
      have hdrop := List.drop_eq_getElem_cons hlt
      obtain ⟨-, hses1⟩ := advancePhase_next X hXs hdrop
      exact Or.inl ⟨_, hses0.trans hses1, rfl, rfl, hA, hP⟩
    case pos =>
      have hadv := advancePhase_roundEnd X hXs hlen
      by_cases hrb : s.breaths < s.currentRound + 1
      case pos =>
        have hcf := completeRound_finish
          { X with session := some { tickedSession s with currentPhaseIndex :=
              (tickedSession s).currentPhaseIndex + 1 } } rfl hrb
        have hses := hcf.2
        rw [← hadv, ← hses0] at hses
        exact Or.inr ⟨_, hses, rfl, rfl, Or.inl ⟨hrb, rfl, rfl⟩⟩
      case neg =>
        cases h0 : ({ tickedSession s with currentPhaseIndex :=
            (tickedSession s).currentPhaseIndex + 1 } : BreathSession).pattern.phases[0]? with
        | some p0 =>
          have hcc := completeRound_continue
            { X with session := some { tickedSession s with currentPhaseIndex :=
                (tickedSession s).currentPhaseIndex + 1 } } rfl
            (by show s.currentRound + 1 ≤ s.breaths; omega) h0
          have hses := hcc.2
          rw [← hadv, ← hses0] at hses
          exact Or.inr ⟨_, hses, rfl, rfl, Or.inr ⟨by omega, hA, hP⟩⟩
        | none =>
          have hnp := completeRound_noPhase
            { X with session := some { tickedSession s with currentPhaseIndex :=
                (tickedSession s).currentPhaseIndex + 1 } } rfl
            (by show ¬ (s.breaths < s.currentRound + 1); omega) h0
          have hses := hnp
          rw [← hadv, ← hses0] at hses
          exact Or.inr ⟨_, hses, rfl, rfl, Or.inr ⟨by omega, hA, hP⟩⟩

end BreathworkEngine
namespace BreathworkEngine

/-- Engine states reachable through the public control surface, with sessions
always created with at least one round and a non-empty phase list, and —
the restriction the C8 counterexample forces — `start()` only invoked while
`currentRound ≤ breaths` (i.e. never on an already-completed session). -/
inductive Reaches : BreathworkEngine → Prop where
  | init : Reaches initEngine
  | create (e : BreathworkEngine) (P : BreathPattern) (N : Nat) (hN : 1 ≤ N)
      (hP : P.phases ≠ []) : Reaches e → Reaches (createSession e P N)
  | startCall (e : BreathworkEngine) (now : Int)
      (hguard : ∀ s, e.session = some s → s.currentRound ≤ s.breaths) :
      Reaches e → Reaches (start e now).1
  | pauseCall (e : BreathworkEngine) : Reaches e → Reaches (pause e).1
  | resumeCall (e : BreathworkEngine) (now : Int) : Reaches e → Reaches (resume e now).1
  | stopCall (e : BreathworkEngine) : Reaches e → Reaches (stop e).1
  | resetCall (e : BreathworkEngine) : Reaches e → Reaches (reset e).1
  | setCallback (e : BreathworkEngine) (b : Bool) : Reaches e → Reaches (setSoundCallback e b)
  | tick (e : BreathworkEngine) (now : Int) : Reaches e → Reaches (timerTick e now).1

/-- The round bookkeeping invariant of C8: the round target is at least 1,
`currentRound` is at least 1 and at most `breaths + 1`, and `currentRound`
exceeds `breaths` only as `breaths + 1` with the session left inert. -/
def RoundInvariant (e : BreathworkEngine) : Prop :=
  ∀ s, e.session = some s →
    1 ≤ s.breaths ∧ 1 ≤ s.currentRound ∧ s.currentRound ≤ s.breaths + 1 ∧
    (s.breaths < s.currentRound →
      s.currentRound = s.breaths + 1 ∧ s.isActive = false ∧ s.isPaused = false)

end BreathworkEngine
namespace BreathworkEngine

/-- C8 amended: for every state reachable with sessions created with
`breaths ≥ 1` and non-empty phases, and `start()` never invoked on a
completed session, `currentRound` starts at (and stays at least) 1, stays at
most `breaths + 1`, and exceeds `breaths` exactly on completion, where it
equals `breaths + 1` and the session is inert. -/
theorem c8_round_invariant (e : BreathworkEngine) (h : Reaches e) : RoundInvariant e := by
  induction h with
  | init =>
    intro s hs
    simp [initEngine] at hs
  | create e' P N hN hP hre ih =>
    intro s hs
    cases hl : P.phases with
    | nil => exact absurd hl hP
    | cons p0 L0 =>
      rw [createSession_session e' P N hl] at hs
      injection hs with h'
      subst h'
      refine ⟨hN, le_refl 1, by show (1 : Nat) ≤ N + 1; omega, ?_⟩
      intro hlt
      have : N < 1 := hlt
      omega
  | startCall e' now hguard hre ih =>
    intro s hs
    cases hs' : e'.session with
    | none =>
      rw [start_noSession e' now hs'] at hs
      simp only at hs
      rw [hs'] at hs
      simp at hs
    | some s0 =>
      rw [start_session e' hs' now] at hs
      injection hs with h'
      subst h'
      obtain ⟨hb, hr1, hrb, -⟩ := ih s0 hs'
      have hg := hguard s0 hs'
      refine ⟨hb, hr1, hrb, ?_⟩
      intro hlt
      have : s0.breaths < s0.currentRound := hlt
      omega
  | pauseCall e' hre ih =>
    intro s hs
    cases hs' : e'.session with
    | none =>
      rw [pause_noSession e' hs'] at hs
      simp only at hs
      exact ih s hs
    | some s0 =>
      cases hA : s0.isActive with
      | false =>
        rw [pause_inactive e' hs' hA] at hs
        simp only at hs
        exact ih s hs
      | true =>
        rw [pause_session_active e' hs' hA] at hs
        injection hs with h'
        subst h'
        obtain ⟨hb, hr1, hrb, himp⟩ := ih s0 hs'
        refine ⟨hb, hr1, hrb, ?_⟩
        intro hlt
        have hfalse := (himp hlt).2.1
        rw [hA] at hfalse
        simp at hfalse
  | resumeCall e' now hre ih =>
    intro s hs
    cases hs' : e'.session with
    | none =>
      rw [resume_noSession e' now hs'] at hs
      simp only at hs
      exact ih s hs
    | some s0 =>
      cases hp : s0.isPaused with
      | false =>
        rw [resume_notPaused e' now hs' hp] at hs
        simp only at hs
        exact ih s hs
      | true =>
        rw [resume_session_paused e' now hs' hp] at hs
        injection hs with h'
        subst h'
        obtain ⟨hb, hr1, hrb, himp⟩ := ih s0 hs'
        refine ⟨hb, hr1, hrb, ?_⟩
        intro hlt
        have hfalse := (himp hlt).2.2
        rw [hp] at hfalse
        simp at hfalse
  | stopCall e' hre ih =>
    intro s hs
    cases hs' : e'.session with
    | none =>
      rw [stop_session_none e' hs'] at hs
      simp at hs
    | some s0 =>
      rw [stop_session e' s0 hs'] at hs
      injection hs with h'
      subst h'
      obtain ⟨hb, hr1, hrb, himp⟩ := ih s0 hs'
      refine ⟨hb, hr1, hrb, ?_⟩
      intro hlt
      exact ⟨(himp hlt).1, rfl, rfl⟩
  | resetCall e' hre ih =>
    intro s hs
    cases hs' : e'.session with
    | none =>
      rw [reset_session_none e' hs'] at hs
      simp at hs
    | some s0 =>
      rw [reset_session e' hs'] at hs
      injection hs with h'
      subst h'
      obtain ⟨hb, -, -, -⟩ := ih s0 hs'
      refine ⟨hb, le_refl 1, by show (1 : Nat) ≤ s0.breaths + 1; omega, ?_⟩
      intro hlt
      have : s0.breaths < 1 := hlt
      omega
  | setCallback e' b hre ih =>
    intro s hs
    exact ih s hs
  | tick e' now hre ih =>
    intro s hs
    cases hs' : e'.session with
    | none =>
      rw [timerTick_noSession e' now hs', clearTimer_session, hs'] at hs
      simp at hs
    | some s0 =>
      by_cases hG : (s0.isPaused || !s0.isActive) = true
      · rw [timerTick_guard e' now hs' hG, clearTimer_session, hs'] at hs
        injection hs with h'
        subst h'
        exact ih s0 hs'
      · have hP : s0.isPaused = false := by
          cases h : s0.isPaused with
          | false => rfl
          | true => exact absurd (by simp [h]) hG
        have hA : s0.isActive = true := by
          cases h : s0.isActive with
          | false => exact absurd (by simp [h]) hG
          | true => rfl
        obtain ⟨hb, hr1, hrb, himp⟩ := ih s0 hs'
        have hrle : s0.currentRound ≤ s0.breaths := by
          by_contra hlt
          push_neg at hlt
          have hfalse := (himp hlt).2.1
          rw [hA] at hfalse
          simp at hfalse
        rcases timerTick_session_cases e' now hs' hA hP with
          ⟨s1, h1, hb1, hr1', hA1, hP1⟩ | ⟨s1, h1, hb1, hr1', hcase⟩
        · rw [h1] at hs
          injection hs with h'
          subst h'
          refine ⟨?_, ?_, ?_, ?_⟩
          · rw [hb1]; exact hb
          · rw [hr1']; exact hr1
          · rw [hr1', hb1]; omega
          · intro hlt
            rw [hr1', hb1] at hlt
            omega
        · rw [h1] at hs
          injection hs with h'
          subst h'
          rcases hcase with ⟨hcmp, hA1, hP1⟩ | ⟨hcont, hA1, hP1⟩
          · refine ⟨?_, ?_, ?_, ?_⟩
            · rw [hb1]; exact hb
            · rw [hr1']; omega
            · rw [hr1', hb1]; omega
            · intro _
              refine ⟨?_, hA1, hP1⟩
              rw [hr1', hb1]
              omega
          · refine ⟨?_, ?_, ?_, ?_⟩
            · rw [hb1]; exact hb
            · rw [hr1']; omega
            · rw [hr1', hb1]; omega
            · intro hlt
              rw [hr1', hb1] at hlt
              omega

end BreathworkEngine
namespace BreathworkEngine

/-- C8 counterexample: the code lets `start()` rerun a completed session, and
one further tick then pushes `currentRound` to `breaths + 2`. Concretely:
create `[inhale 3]` with 1 round, start, tick 3 times (session completes at
round 2), start again, tick once — the session then has `currentRound = 3`
and `breaths = 1`, so `currentRound > breaths` holds with
`currentRound ≠ breaths + 1`, refuting the claimed equality over unrestricted
reachable states. -/
theorem c8_restart_breaks_round_bound :
    ∃ s, (timerTick (start (runTicks (start (createSession initEngine singleInhale 1) 0).1
        0 3).1 0).1 0).1.session = some s ∧
      s.breaths < s.currentRound ∧ ¬ s.currentRound = s.breaths + 1 := by
  refine ⟨_, rfl, by decide, by decide⟩

/-- Closed instance of the C8 amended theorem: the invariant at the concrete
reachable state after create/start/one tick. -/
theorem c8_round_invariant_witness :
    RoundInvariant (timerTick (start (createSession initEngine singleInhale 1) 0).1 0).1 :=
  c8_round_invariant _
    (Reaches.tick _ 0
      (Reaches.startCall _ 0
        (fun s h => by
          rw [createSession_session initEngine singleInhale 1 rfl] at h
          injection h with h'
          subst h'
          decide)
        (Reaches.create initEngine singleInhale 1 (by decide) (by decide) Reaches.init)))

end BreathworkEngine
